import Mathlib

/-!
Shallow embedding of the smithy-mcp MCP server's tool-dispatch layer:
the search / read / list tool handlers
(`packages/functions/src/mcp-server/tools/{search,read,list}.ts`) and the
Lambda `tools/call` dispatcher switch.  JavaScript strings are modelled as
`String` (with `List Char` for the character-level path manipulation),
JavaScript numbers used as result counts as `Int`, and each handler's single
awaited collaborator call as an explicit outcome value (a thrown exception
becomes an error constructor of the outcome type).
-/

namespace SmithyMcp

/-- One element of an MCP response's `content` array: `{ type: 'text'; text: string }`
from `common/types.ts`. -/
structure ContentBlock where
  type : String
  text : String
deriving Repr, DecidableEq

/-- `MCPToolResponse` from `common/types.ts`:
`{ content: Array<{type:'text'; text:string}>; isError?: boolean }`.
`isError := none` models the field being absent. -/
structure MCPToolResponse where
  content : List ContentBlock
  isError : Option Bool := none
deriving Repr, DecidableEq

/-- A search hit as produced by `searchKnowledgeBase` in `bedrock-client.ts`
(`SearchResult` in `common/types.ts`); the unused optional `metadata` map is
omitted, and `location.s3Uri` is flattened to `s3Uri`. -/
structure SearchResult where
  content : String
  s3Uri : String
  score : Float

/-- Outcome of the single awaited call `searchKnowledgeBase(query, maxResults)`:
either it resolves with a result list, or it throws a value that is an
`Error` carrying a message, or it throws something that is not an `Error`. -/
inductive RetrievalOutcome where
  | ok (results : List SearchResult)
  | errWithMessage (msg : String)
  | errOther

/-- Outcome of the awaited S3 `GetObjectCommand` + `transformToString` in the
read handler: resolves with the (possibly undefined) body text, or throws a
`NoSuchKey` error, or throws some other `Error` with a message, or throws a
non-`Error` value. -/
inductive ReadOutcome where
  | ok (content : Option String)
  | noSuchKey
  | errWithMessage (msg : String)
  | errOther

/-- Outcome of the awaited S3 `ListObjectsV2Command` in the list handler:
resolves with `response.Contents` (possibly undefined, and each entry's `Key`
possibly undefined), or throws. -/
inductive ListOutcome where
  | ok (contents : Option (List (Option String)))
  | errWithMessage (msg : String)
  | errOther

/-- JavaScript `a || d` on an optional number `a`: `undefined` and `0` are
falsy and give the default `d`; every other value passes through. -/
def jsOrDefault (v : Option Int) (d : Int) : Int :=
  match v with
  | none => d
  | some x => if x = 0 then d else x

/-- `const maxResults = Math.min(args.max_results || 5, 10);`
(search.ts line 28): the limit actually passed to `searchKnowledgeBase`. -/
def effectiveLimit (max_results : Option Int) : Int :=
  min (jsOrDefault max_results 5) 10

/-- JavaScript `s.split(sep)` for a one-character separator: splits into the
(never empty) list of chunks between separator occurrences; `"".split(sep)`
gives `[""]` and a trailing separator gives a trailing `""` chunk. -/
def splitOnChar (sep : Char) : List Char → List (List Char)
  | [] => [[]]
  | c :: rest =>
    if c = sep then [] :: splitOnChar sep rest
    else
      match splitOnChar sep rest with
      | [] => [[c]]
      | s :: tail => (c :: s) :: tail

/-- The literal fallback label `'unknown'` as a character list. -/
def unknownChars : List Char := ['u', 'n', 'k', 'n', 'o', 'w', 'n']

/-- `result.location.s3Uri.split('/').pop() || 'unknown'` (search.ts line 39):
`pop()` of the split is the last chunk (`undefined` only for an empty array,
which `split` never yields), and `|| 'unknown'` replaces an undefined or
empty chunk by the literal `'unknown'`. -/
def sourceLabel (uri : List Char) : List Char :=
  match (splitOnChar '/' uri).getLast? with
  | some seg => if seg = [] then unknownChars else seg
  | none => unknownChars

/-- String-level wrapper of `sourceLabel`, used when building the report. -/
def sourceLabelS (uri : String) : String :=
  String.mk (sourceLabel uri.data)

/-- A hexadecimal digit character (lowercase), for `\u00XX` escapes. -/
def hexDigit (n : Nat) : Char :=
  if n < 10 then Char.ofNat (48 + n) else Char.ofNat (87 + n)

/-- JSON string escaping of one character as performed by `JSON.stringify`. -/
def jsonEscapeChar (c : Char) : List Char :=
  if c = '"' then ['\\', '"']
  else if c = '\\' then ['\\', '\\']
  else if c = '\x08' then ['\\', 'b']
  else if c = '\x0c' then ['\\', 'f']
  else if c = '\n' then ['\\', 'n']
  else if c = '\r' then ['\\', 'r']
  else if c = '\t' then ['\\', 't']
  else if c.toNat < 32 then
    ['\\', 'u', '0', '0', hexDigit (c.toNat / 16), hexDigit (c.toNat % 16)]
  else [c]

/-- `JSON.stringify` of a string value: surrounding quotes plus escaping. -/
def jsonQuote (s : String) : String :=
  "\"" ++ String.mk (s.data.foldr (fun c acc => jsonEscapeChar c ++ acc) []) ++ "\""

/-- A model of JavaScript `Number.prototype.toFixed(3)` for the scores the
retrieval service returns (non-negative, small): scale by 1000, round to the
nearest integer, and print with exactly three decimal places.  No claim
depends on this rendering; it only appears inside the formatted report. -/
def toFixed3 (x : Float) : String :=
  let neg := x < 0.0
  let y := if neg then -x else x
  let n := (y * 1000.0 + 0.5).toUInt64.toNat
  let frac := n % 1000
  let fracStr :=
    (if frac < 10 then "00" else if frac < 100 then "0" else "") ++ toString frac
  (if neg then "-" else "") ++ toString (n / 1000) ++ "." ++ fracStr

/-- The markdown report built by the success path of `handleSearchTool`
(search.ts lines 37-41): header naming the query and result count, then per
result a heading with 1-based ordinal and 3-decimal score, the source label,
the raw content, and a separator. -/
def searchReport (query : String) (results : List SearchResult) : String :=
  let header :=
    "# Search Results for: \"" ++ query ++ "\"\n\nFound "
      ++ toString results.length ++ " relevant section(s):\n\n"
  results.enum.foldl
    (fun acc ir =>
      acc ++ "## Result " ++ toString (ir.1 + 1) ++ " (Score: "
        ++ toFixed3 ir.2.score ++ ")\n**Source:** `" ++ sourceLabelS ir.2.s3Uri
        ++ "`\n\n" ++ ir.2.content ++ "\n\n---\n\n")
    header

/-- The response `handleSearchTool` builds from the retrieval call's outcome
(search.ts lines 31-49): zero results give a success response with a hint;
results give a success response carrying the report; a thrown error is caught
and wrapped with the fixed prefix, with `'Unknown error'` when the thrown
value is not an `Error`. -/
def searchOutcomeResponse (query : String) (o : RetrievalOutcome) : MCPToolResponse :=
  match o with
  | .ok results =>
    if results.length = 0 then
      { content := [⟨"text", "No relevant documentation found for your query. Try rephrasing or using different keywords."⟩] }
    else
      { content := [⟨"text", searchReport query results⟩] }
  | .errWithMessage msg =>
    { content := [⟨"text", "Error searching documentation: " ++ msg⟩], isError := some true }
  | .errOther =>
    { content := [⟨"text", "Error searching documentation: Unknown error"⟩], isError := some true }

/-- `handleSearchTool` (search.ts lines 26-50), parameterised by the
`searchKnowledgeBase` collaborator.  The whole body is wrapped in
`try/catch`; the only fallible step is the awaited collaborator call, so the
catch branches live in `searchOutcomeResponse`.  Totality of this function
models that no exception escapes the handler. -/
def handleSearchTool (query : String) (max_results : Option Int)
    (searchKB : String → Int → RetrievalOutcome) : MCPToolResponse :=
  searchOutcomeResponse query (searchKB query (effectiveLimit max_results))

/-- `args.file_path.replace(/^\/+/, '')` (read.ts line 24): the regex matches
the maximal run of leading `'/'` characters, which the replacement deletes. -/
def dropLeadingSlashes (p : List Char) : List Char :=
  p.dropWhile (fun c => c = '/')

/-- `const key = ` ++ "`smithy-docs/${cleanPath}`" ++ ` ` (read.ts line 25):
the S3 key the read handler fetches. -/
def documentKey (file_path : List Char) : List Char :=
  "smithy-docs/".data ++ dropLeadingSlashes file_path

/-- String-level storage key used by the read handler. -/
def readKey (file_path : String) : String :=
  String.mk (documentKey file_path.data)

/-- `handleReadTool` (read.ts lines 22-50), parameterised by the object
store: `store` maps the requested key to the outcome of the awaited
`GetObjectCommand` + `transformToString`.  `if (!content)` treats both an
undefined body and an empty string as empty; the catch distinguishes
`NoSuchKey` from other errors.  Totality models that no exception escapes. -/
def handleReadTool (file_path : String) (store : String → ReadOutcome) : MCPToolResponse :=
  match store (readKey file_path) with
  | .ok content =>
    if content.getD "" = "" then
      { content := [⟨"text", "Document found but content is empty: " ++ file_path⟩],
        isError := some true }
    else
      { content := [⟨"text", "# " ++ file_path ++ "\n\n" ++ content.getD ""⟩] }
  | .noSuchKey =>
    { content := [⟨"text", "Document not found: " ++ file_path ++ "\n\nTip: Use search_smithy_docs to find available documents."⟩],
      isError := some true }
  | .errWithMessage msg =>
    { content := [⟨"text", "Error reading document: " ++ msg⟩], isError := some true }
  | .errOther =>
    { content := [⟨"text", "Error reading document: Unknown error"⟩], isError := some true }

/-- JavaScript `s.replace(pat, '')` for a plain-string pattern: deletes the
first occurrence of `pat`, scanning left to right (list.ts line 80 uses it to
strip the `'smithy-docs/'` namespace from a listed key). -/
def removeFirst (pat : List Char) : List Char → List Char
  | [] => []
  | c :: rest =>
    if pat.isPrefixOf (c :: rest) then (c :: rest).drop pat.length
    else c :: removeFirst pat rest

/-- `file.Key.replace(PREFIX, '')` (list.ts line 80) with
`PREFIX = 'smithy-docs/'`. -/
def relativePathOf (key : String) : String :=
  String.mk (removeFirst "smithy-docs/".data key.data)

/-- `parts.length === 1 ? 'Root' : parts.slice(0, -1).join('/')`
(list.ts lines 81-82): the group a relative path is filed under. -/
def dirOf (rel : String) : String :=
  let parts := splitOnChar '/' rel.data
  if parts.length = 1 then "Root" else String.mk (List.intercalate ['/'] parts.dropLast)

/-- One step of building `fileTree` (list.ts lines 83-84): push `rel` onto
the bucket for `dir`, creating the bucket at the end on first use — this
keeps JavaScript object-key insertion order. -/
def insertFile (t : List (String × List String)) (dir rel : String) :
    List (String × List String) :=
  match t with
  | [] => [(dir, [rel])]
  | (d, fs) :: rest =>
    if d = dir then (d, fs ++ [rel]) :: rest else (d, fs) :: insertFile rest dir rel

/-- The `files.forEach` loop building `fileTree` (list.ts lines 77-85):
entries with an undefined or empty (falsy) `Key` are skipped. -/
def fileTreeOf (files : List (Option String)) : List (String × List String) :=
  files.foldl
    (fun t file =>
      match file with
      | none => t
      | some key =>
        if key = "" then t
        else
          let rel := relativePathOf key
          insertFile t (dirOf rel) rel)
    []

/-- `fileTree[dir]` lookup during rendering. -/
def lookupTree (t : List (String × List String)) (dir : String) : List String :=
  match t.find? (fun p => p.1 = dir) with
  | some p => p.2
  | none => []

/-- JavaScript string `<` (UTF-16 code-unit lexicographic comparison), the
order `Array.prototype.sort()` uses on the group names. -/
def jsStrLtB : List Char → List Char → Bool
  | [], [] => false
  | [], _ :: _ => true
  | _ :: _, [] => false
  | a :: as, b :: bs =>
    if a.toNat < b.toNat then true
    else if b.toNat < a.toNat then false
    else jsStrLtB as bs

/-- Insert a string into a list sorted by `jsStrLtB`. -/
def insertSorted (x : String) : List String → List String
  | [] => [x]
  | y :: ys => if jsStrLtB y.data x.data then y :: insertSorted x ys else x :: y :: ys

/-- `Object.keys(fileTree).sort()` (list.ts line 88): the group names in
ascending code-unit lexicographic order (keys are distinct, so any correct
sort gives the same list). -/
def sortKeys (l : List String) : List String :=
  l.foldr insertSorted []

/-- The rendering loop of `handleListTool` (list.ts lines 88-92): for each
group in sorted order, a subheading and one bullet per file, in the order
the keys were received. -/
def renderTree (t : List (String × List String)) : String :=
  (sortKeys (t.map Prod.fst)).foldl
    (fun acc dir =>
      acc ++ "## " ++ dir ++ "\n\n"
        ++ (lookupTree t dir).foldl (fun a f => a ++ "- `" ++ f ++ "`\n") ""
        ++ "\n")
    ""

/-- `handleListTool` (list.ts lines 68-101), parameterised by the outcome of
the single awaited `ListObjectsV2Command`.  `const files = response.Contents
|| []`; an empty listing is a success response; otherwise the header counts
every listed entry (`files.length`) and the grouped tree follows.  Totality
models that no exception escapes. -/
def handleListTool (o : ListOutcome) : MCPToolResponse :=
  match o with
  | .ok contents =>
    let files := contents.getD []
    if files.length = 0 then
      { content := [⟨"text", "No documentation files found. The knowledge base may not be populated yet."⟩] }
    else
      { content := [⟨"text",
          "# Smithy Documentation Files\n\nTotal files: " ++ toString files.length
            ++ "\n\n" ++ renderTree (fileTreeOf files)⟩] }
  | .errWithMessage msg =>
    { content := [⟨"text", "Error listing topics: " ++ msg⟩], isError := some true }
  | .errOther =>
    { content := [⟨"text", "Error listing topics: Unknown error"⟩], isError := some true }

/-- The HTTP-shaped value the Lambda dispatcher returns:
`{ statusCode, headers?, body }`. -/
structure LambdaResponse where
  statusCode : Nat
  headers : List (String × String) := []
  body : String
deriving Repr, DecidableEq

/-- `JSON.stringify` of one content block (key order follows the object
literal: `type` then `text`). -/
def jsonOfBlock (b : ContentBlock) : String :=
  "\x7b\"type\":" ++ jsonQuote b.type ++ ",\"text\":" ++ jsonQuote b.text ++ "\x7d"

/-- `JSON.stringify` of an `MCPToolResponse`: the `content` array, then the
`isError` key only when the field is present. -/
def jsonOfResponse (r : MCPToolResponse) : String :=
  "\x7b\"content\":[" ++ String.intercalate "," (r.content.map jsonOfBlock) ++ "]"
    ++ (match r.isError with
        | none => ""
        | some b => ",\"isError\":" ++ (if b then "true" else "false"))
    ++ "\x7d"

/-- `JSON.stringify({ error: msg })`. -/
def jsonErrorBody (msg : String) : String :=
  "\x7b\"error\":" ++ jsonQuote msg ++ "\x7d"

/-- The headers attached to every 200 response of the Lambda dispatcher. -/
def corsHeaders : List (String × String) :=
  [("Content-Type", "application/json"), ("Access-Control-Allow-Origin", "*")]

/-- The `tools/call` branch of the Lambda dispatcher (the `switch (name)` in
the implementation guide's `mcp-server/index.ts` handler), parameterised by
the response each tool handler would produce for the call's arguments: a
known tool name yields `statusCode 200` with the serialised handler result;
the `default` case returns `statusCode 400` with the body
`JSON.stringify({ error: 'Unknown tool: ' + name })` and no headers.
Totality models that the process keeps serving after an unknown tool. -/
def handleToolsCall (name : String)
    (searchResult readResult listResult : MCPToolResponse) : LambdaResponse :=
  if name = "search_smithy_docs" then
    { statusCode := 200, headers := corsHeaders, body := jsonOfResponse searchResult }
  else if name = "read_smithy_doc" then
    { statusCode := 200, headers := corsHeaders, body := jsonOfResponse readResult }
  else if name = "list_smithy_topics" then
    { statusCode := 200, headers := corsHeaders, body := jsonOfResponse listResult }
  else
    { statusCode := 400, body := jsonErrorBody ("Unknown tool: " ++ name) }

/-- An arbitrary concrete handler response, used to instantiate the
dispatcher in closed statements. -/
def emptyResponse : MCPToolResponse := { content := [] }

/-! Helper lemmas about the character-level path functions. -/

theorem splitOnChar_ne_nil (sep : Char) (l : List Char) : splitOnChar sep l ≠ [] := by
  induction l with
  | nil => simp [splitOnChar]
  | cons c rest ih =>
    simp only [splitOnChar]
    split
    · simp
    · split
      · simp
      · simp

theorem splitOnChar_of_not_mem (sep : Char) (l : List Char) (h : sep ∉ l) :
    splitOnChar sep l = [l] := by
  induction l with
  | nil => simp [splitOnChar]
  | cons c rest ih =>
    have hc : ¬ c = sep := by
      rintro rfl
      exact h (List.mem_cons_self c rest)
    have hrest : sep ∉ rest := fun hm => h (List.mem_cons_of_mem c hm)
    simp only [splitOnChar, if_neg hc, ih hrest]

theorem two_le_length_splitOnChar (sep : Char) (l : List Char) (h : sep ∈ l) :
    2 ≤ (splitOnChar sep l).length := by
  induction l with
  | nil => cases h
  | cons c rest ih =>
    simp only [splitOnChar]
    by_cases hc : c = sep
    · rw [if_pos hc]
      have hne := splitOnChar_ne_nil sep rest
      cases hr : splitOnChar sep rest with
      | nil => exact absurd hr hne
      | cons a t => simp [List.length_cons]
    · rw [if_neg hc]
      have hmem : sep ∈ rest := by
        rcases List.mem_cons.mp h with h1 | h2
        · exact absurd h1.symm hc
        · exact h2
      have h2 := ih hmem
      cases hr : splitOnChar sep rest with
      | nil => exact absurd hr (splitOnChar_ne_nil sep rest)
      | cons s tail =>
        rw [hr] at h2
        simp only [List.length_cons] at h2 ⊢
        omega

theorem getLast?_splitOnChar_append (sep : Char) (xs ys : List Char) :
    (splitOnChar sep (xs ++ sep :: ys)).getLast? = (splitOnChar sep ys).getLast? := by
  induction xs with
  | nil =>
    have hstep : splitOnChar sep (sep :: ys) = [] :: splitOnChar sep ys := by
      simp [splitOnChar]
    rw [List.nil_append, hstep]
    cases hr : splitOnChar sep ys with
    | nil => exact absurd hr (splitOnChar_ne_nil sep ys)
    | cons s tail => rw [List.getLast?_cons_cons]
  | cons c xs ih =>
    simp only [List.cons_append, splitOnChar]
    by_cases hc : c = sep
    · rw [if_pos hc]
      cases hr : splitOnChar sep (xs ++ sep :: ys) with
      | nil => exact absurd hr (splitOnChar_ne_nil sep _)
      | cons s tail =>
        rw [List.getLast?_cons_cons]
        rw [hr] at ih
        exact ih
    · rw [if_neg hc]
      have hmem : sep ∈ xs ++ sep :: ys :=
        List.mem_append.mpr (Or.inr (List.mem_cons_self sep ys))
      have hlen := two_le_length_splitOnChar sep (xs ++ sep :: ys) hmem
      cases hr : splitOnChar sep (xs ++ sep :: ys) with
      | nil => exact absurd hr (splitOnChar_ne_nil sep _)
      | cons s tail =>
        rw [hr] at ih hlen
        cases tail with
        | nil => simp at hlen
        | cons t tail' =>
          rw [List.getLast?_cons_cons]
          rw [List.getLast?_cons_cons] at ih
          exact ih

theorem head?_dropLeadingSlashes (p : List Char) :
    (dropLeadingSlashes p).head? ≠ some '/' := by
  induction p with
  | nil => simp [dropLeadingSlashes]
  | cons c rest ih =>
    by_cases hc : c = '/'
    · simpa [dropLeadingSlashes, List.dropWhile_cons, hc] using ih
    · simp [dropLeadingSlashes, List.dropWhile_cons, hc]

/-! Claim theorems. -/

/-- C1: if `max_results` is supplied and greater than 10 the effective limit
passed to the retrieval collaborator (`searchKnowledgeBase`) is exactly 10,
and if `max_results` is absent the effective limit is exactly 5; in either
case the handler's behaviour is that of the retrieval call at that limit. -/
theorem C1_clamp (v : Int) (h : 10 < v) (q : String)
    (f : String → Int → RetrievalOutcome) :
    effectiveLimit (some v) = 10 ∧ effectiveLimit none = 5 ∧
    handleSearchTool q (some v) f = searchOutcomeResponse q (f q 10) ∧
    handleSearchTool q none f = searchOutcomeResponse q (f q 5) := by
  have h10 : effectiveLimit (some v) = 10 := by
    simp only [effectiveLimit, jsOrDefault]
    rw [if_neg (by omega : ¬ v = 0)]
    exact min_eq_right (by omega)
  have h5 : effectiveLimit none = 5 := by decide
  refine ⟨h10, h5, ?_, ?_⟩
  · simp only [handleSearchTool, h10]
  · simp only [handleSearchTool, h5]

/-- Witness for C1 at `max_results = 11`. -/
theorem C1_clamp_witness :
    effectiveLimit (some 11) = 10 ∧ effectiveLimit none = 5 ∧
    handleSearchTool "q" (some 11) (fun _ _ => RetrievalOutcome.ok []) =
      searchOutcomeResponse "q" ((fun _ _ => RetrievalOutcome.ok []) "q" 10) ∧
    handleSearchTool "q" none (fun _ _ => RetrievalOutcome.ok []) =
      searchOutcomeResponse "q" ((fun _ _ => RetrievalOutcome.ok []) "q" 5) :=
  C1_clamp 11 (by decide) "q" (fun _ _ => RetrievalOutcome.ok [])

/-- C2 counterexample: dispatching the unknown tool name `"bogus_tool"` does
not produce a ToolResponse envelope with `isError: true`; the dispatcher's
`default` case returns an HTTP 400 value whose JSON body is an `error`
object naming the tool, not a 200-serialised `MCPToolResponse`. -/
theorem C2_counterexample :
    handleToolsCall "bogus_tool" emptyResponse emptyResponse emptyResponse =
      { statusCode := 400, headers := [],
        body := "\x7b\"error\":\"Unknown tool: bogus_tool\"\x7d" } ∧
    (handleToolsCall "bogus_tool" emptyResponse emptyResponse emptyResponse).statusCode ≠ 200 := by
  constructor
  · decide
  · decide

/-- C2 amended: for every tool-call name other than the three registered
identifiers, the dispatcher returns statusCode 400 with body
`JSON.stringify({ error: 'Unknown tool: ' + name })` (so the diagnostic
names the unknown tool), and — the dispatcher being a total function — no
exception escapes, so the process continues serving. -/
theorem C2_amended (name : String) (sr rr lr : MCPToolResponse)
    (h1 : name ≠ "search_smithy_docs") (h2 : name ≠ "read_smithy_doc")
    (h3 : name ≠ "list_smithy_topics") :
    handleToolsCall name sr rr lr =
      { statusCode := 400, headers := [],
        body := jsonErrorBody ("Unknown tool: " ++ name) } := by
  simp only [handleToolsCall, if_neg h1, if_neg h2, if_neg h3]

/-- Witness for the amended C2 at name `"bogus_tool"`. -/
theorem C2_amended_witness :
    handleToolsCall "bogus_tool" emptyResponse emptyResponse emptyResponse =
      { statusCode := 400, headers := [],
        body := jsonErrorBody ("Unknown tool: " ++ "bogus_tool") } :=
  C2_amended "bogus_tool" emptyResponse emptyResponse emptyResponse
    (by decide) (by decide) (by decide)

/-- C3: `read(p)` and `read('/' + p)` resolve to the same storage key (both
at the character level and for the handler's actual key), and after
normalization the relative portion of the key never begins with `'/'`. -/
theorem C3_path_normalization (p : List Char) (fp : String) :
    documentKey ('/' :: p) = documentKey p ∧
    readKey ("/" ++ fp) = readKey fp ∧
    (dropLeadingSlashes p).head? ≠ some '/' := by
  have hdata : ("/" ++ fp).data = '/' :: fp.data := rfl
  have hdrop : ∀ l : List Char, dropLeadingSlashes ('/' :: l) = dropLeadingSlashes l := by
    intro l
    simp [dropLeadingSlashes, List.dropWhile_cons]
  refine ⟨?_, ?_, head?_dropLeadingSlashes p⟩
  · simp only [documentKey, hdrop]
  · simp only [readKey, hdata, documentKey, hdrop]

/-- Witness for C3 at the path `"a/b.md"`. -/
theorem C3_path_normalization_witness :
    documentKey ('/' :: "a/b.md".data) = documentKey "a/b.md".data ∧
    readKey ("/" ++ "a/b.md") = readKey "a/b.md" ∧
    (dropLeadingSlashes "a/b.md".data).head? ≠ some '/' :=
  C3_path_normalization "a/b.md".data "a/b.md"

/-- C4: a retrieval call returning zero results yields a success response
(`isError` absent), whereas a read of a key the store reports as `NoSuchKey`
yields a response with `isError: true`. -/
theorem C4_empty_vs_error (q : String) (mr : Option Int) (p : String) :
    (handleSearchTool q mr (fun _ _ => RetrievalOutcome.ok [])).isError = none ∧
    (handleReadTool p (fun _ => ReadOutcome.noSuchKey)).isError = some true := by
  constructor
  · simp [handleSearchTool, searchOutcomeResponse]
  · simp [handleReadTool]

/-- C5: for the listing `smithy-docs/a.md`, `smithy-docs/b/c.md`,
`smithy-docs/b/d.md`, the list handler groups `a.md` under `Root` and both
`b/c.md`, `b/d.md` under `b` (in received order), reports 3 total files, and
renders the groups in lexicographic order. -/
theorem C5_grouping :
    fileTreeOf [some "smithy-docs/a.md", some "smithy-docs/b/c.md", some "smithy-docs/b/d.md"] =
      [("Root", ["a.md"]), ("b", ["b/c.md", "b/d.md"])] ∧
    sortKeys ["Root", "b"] = ["Root", "b"] ∧
    handleListTool (ListOutcome.ok (some
        [some "smithy-docs/a.md", some "smithy-docs/b/c.md", some "smithy-docs/b/d.md"])) =
      { content := [⟨"text", "# Smithy Documentation Files\n\nTotal files: 3\n\n## Root\n\n- `a.md`\n\n## b\n\n- `b/c.md`\n- `b/d.md`\n\n"⟩] } := by
  refine ⟨?_, ?_, ?_⟩ <;> decide

/-- C6: a successful read of path `p` with nonempty fetched content `c`
returns a success response whose text is `'# ' + p` followed by a blank line
and `c` verbatim; in particular `read("quickstart.md")` with stored content
`"# Hello"` yields `"# quickstart.md\n\n# Hello"`. -/
theorem C6_read_success (p c : String) (h : c ≠ "") :
    handleReadTool p (fun _ => ReadOutcome.ok (some c)) =
      { content := [⟨"text", "# " ++ p ++ "\n\n" ++ c⟩] } ∧
    handleReadTool "quickstart.md" (fun _ => ReadOutcome.ok (some "# Hello")) =
      { content := [⟨"text", "# quickstart.md\n\n# Hello"⟩] } := by
  constructor
  · simp only [handleReadTool, Option.getD]
    rw [if_neg h]
  · decide

/-- Witness for C6 at `read("quickstart.md")` with content `"# Hello"`. -/
theorem C6_read_success_witness :
    handleReadTool "quickstart.md" (fun _ => ReadOutcome.ok (some "# Hello")) =
      { content := [⟨"text", "# " ++ "quickstart.md" ++ "\n\n" ++ "# Hello"⟩] } ∧
    handleReadTool "quickstart.md" (fun _ => ReadOutcome.ok (some "# Hello")) =
      { content := [⟨"text", "# quickstart.md\n\n# Hello"⟩] } :=
  C6_read_success "quickstart.md" "# Hello" (by decide)

/-- C7: when the retrieval collaborator fails, the search handler returns
`isError: true` with the single text block `'Error searching documentation: '`
followed by the failure's message, or by `'Unknown error'` when the thrown
value carries no message; the error is absorbed, never rethrown. -/
theorem C7_search_failure (q : String) (mr : Option Int) (msg : String) :
    handleSearchTool q mr (fun _ _ => RetrievalOutcome.errWithMessage msg) =
      { content := [⟨"text", "Error searching documentation: " ++ msg⟩],
        isError := some true } ∧
    handleSearchTool q mr (fun _ _ => RetrievalOutcome.errOther) =
      { content := [⟨"text", "Error searching documentation: Unknown error"⟩],
        isError := some true } :=
  ⟨rfl, rfl⟩

/-- C8 counterexample: `max_results = -3` is below 1 but, being truthy in
JavaScript, is passed through `args.max_results || 5` unchanged, so the
effective limit is -3, not the default 5. -/
theorem C8_counterexample :
    effectiveLimit (some (-3)) = -3 ∧ effectiveLimit (some (-3)) ≠ 5 := by
  decide

/-- C8 amended: for a supplied `max_results` below 1, only the falsy value 0
is replaced by the default 5; every other value below 1 (in particular any
negative value) is passed to the retrieval collaborator unchanged. -/
theorem C8_amended (v : Int) (h : v < 1) :
    effectiveLimit (some v) = if v = 0 then 5 else v := by
  simp only [effectiveLimit, jsOrDefault]
  by_cases hv : v = 0
  · rw [if_pos hv]
    decide
  · rw [if_neg hv]
    exact min_eq_left (by omega)

/-- Witness for the amended C8 at `max_results = -3`. -/
theorem C8_amended_witness :
    effectiveLimit (some (-3)) = if (-3 : Int) = 0 then 5 else -3 :=
  C8_amended (-3) (by decide)

/-- C9: the rendered source label is `'unknown'` for an empty source
location or one with no final path segment (a location ending in `'/'`),
and is otherwise the final path segment of the location. -/
theorem C9_source_label (xs seg s : List Char)
    (h1 : '/' ∉ seg) (h2 : '/' ∉ s) (h3 : s ≠ []) :
    sourceLabel [] = unknownChars ∧
    sourceLabel (xs ++ '/' :: seg) = (if seg = [] then unknownChars else seg) ∧
    sourceLabel s = s := by
  refine ⟨rfl, ?_, ?_⟩
  · simp only [sourceLabel, getLast?_splitOnChar_append]
    rw [splitOnChar_of_not_mem '/' seg h1]
    simp
  · simp only [sourceLabel]
    rw [splitOnChar_of_not_mem '/' s h2]
    simp [h3]

/-- Witness for C9: label of `"a/b.md"` is `"b.md"`, label of a slash-free
location `"c.md"` is itself, label of `""` is `"unknown"`. -/
theorem C9_source_label_witness :
    sourceLabel [] = unknownChars ∧
    sourceLabel ("a".data ++ '/' :: "b.md".data) =
      (if "b.md".data = [] then unknownChars else "b.md".data) ∧
    sourceLabel "c.md".data = "c.md".data :=
  C9_source_label "a".data "b.md".data "c.md".data (by decide) (by decide) (by decide)

/-- C10: whatever the collaborator outcome, each of the three handlers
returns a response whose `content` array is exactly one block of type
`"text"`. -/
theorem C10_single_text_block (q p : String) (mr : Option Int)
    (f : String → Int → RetrievalOutcome) (store : String → ReadOutcome)
    (lo : ListOutcome) :
    (handleSearchTool q mr f).content.map ContentBlock.type = ["text"] ∧
    (handleReadTool p store).content.map ContentBlock.type = ["text"] ∧
    (handleListTool lo).content.map ContentBlock.type = ["text"] := by
  refine ⟨?_, ?_, ?_⟩
  · simp only [handleSearchTool]
    cases f q (effectiveLimit mr) with
    | ok results =>
      by_cases h : results.length = 0 <;> simp [searchOutcomeResponse, h]
    | errWithMessage msg => simp [searchOutcomeResponse]
    | errOther => simp [searchOutcomeResponse]
  · cases hs : store (readKey p) with
    | ok content =>
      by_cases h : content.getD "" = "" <;> simp [handleReadTool, hs, h]
    | noSuchKey => simp [handleReadTool, hs]
    | errWithMessage msg => simp [handleReadTool, hs]
    | errOther => simp [handleReadTool, hs]
  · cases lo with
    | ok contents =>
      by_cases h : (contents.getD []).length = 0 <;> simp [handleListTool, h]
    | errWithMessage msg => simp [handleListTool]
    | errOther => simp [handleListTool]

end SmithyMcp
